import Mathlib

/-!
# Verification of the pricing-prediction pipeline

Shallow embedding of the repository's pricing pipeline:

* `src/ai_model.py` — `DynamicPricingModel` (state, `load_model`, `predict`,
  `predict_single`, `get_feature_importance`, and the scaler fitting inside
  `train`);
* `src/data_pipeline.py` — `DataPipeline` (`generate_sample_data`,
  `validate_data`, `transform_data`).

Machine floats are idealised as `ℚ` (exact arithmetic); `NaN` / missing cells
are explicit constructors; fallible code returns `Except`.
-/

namespace Pricing

/-! ## DynamicPricingModel state (`src/ai_model.py`)

`__init__` sets `self.model = None`, `self.scaler = None`,
`self.is_trained = False`.  The state is polymorphic in the payload types of
`model` and `scaler` so that persistence claims (which do not inspect the
payloads) can be stated generically. -/

structure ModelState (M S : Type) where
  model : Option M
  scaler : Option S
  is_trained : Bool
deriving DecidableEq, Repr

/-- Python `DynamicPricingModel.__init__`: fresh, untrained state. -/
def initModel (M S : Type) : ModelState M S :=
  { model := none, scaler := none, is_trained := false }

/-! ## Persistence (`load_model`, lines 195–207)

The pickle blob on disk is either absent/unreadable (the `open`/`pickle.load`
raises), or it unpickles to a dictionary that may or may not carry the
`'model'` and `'scaler'` entries.  `load_model` executes, inside `try`:
`self.model = data['model']`; `self.scaler = data['scaler']`;
`self.is_trained = True`; any raise is caught and `False` is returned —
assignments already performed before the raise are NOT rolled back. -/

inductive Blob (M S : Type) where
  /-- file missing or unreadable, or `pickle.load` itself fails -/
  | absent : Blob M S
  /-- a dictionary blob whose `'model'` / `'scaler'` entries may be missing -/
  | record : Option M → Option S → Blob M S
deriving DecidableEq, Repr

/-- Python `DynamicPricingModel.load_model`.  Returns the post-state and the Boolean
result.  The sequential field assignments of the Python `try` block are
modelled exactly: a `KeyError` on `data['scaler']` happens after
`self.model` has already been overwritten. -/
def load_model {M S : Type} (st : ModelState M S) (b : Blob M S) :
    ModelState M S × Bool :=
  match b with
  | .absent => (st, false)
  | .record none _ => (st, false)            -- KeyError at data['model']
  | .record (some m) none =>                 -- model assigned, then KeyError
      ({ st with model := some m }, false)
  | .record (some m) (some s) =>
      ({ model := some m, scaler := some s, is_trained := true }, true)

/-! ## Prediction and feature importance (`src/ai_model.py`)

A `FeatureVector` is the fixed-order six-number encoding
`[base_price, demand, competition_price, time_of_day, day_of_week, season]`. -/

abbrev Vec6 : Type := Fin 6 → ℚ

/-- Errors the Python methods can raise out of `predict` /
`get_feature_importance`. -/
inductive PricingError where
  /-- Python `ValueError("Model must be trained before prediction")` -/
  | untrainedError : PricingError
  /-- attribute access on a `None` model/scaler -/
  | attributeError : PricingError
  /-- Python `prediction[0]` on an empty array -/
  | indexError : PricingError
deriving DecidableEq, Repr

/-- The fitted `StandardScaler` as stored on the instance: per-feature
`mean_` and `scale_` vectors (`transform` computes `(x - mean_) / scale_`). -/
structure Scaler where
  mean : Vec6
  scale : Vec6

/-- The fitted `RandomForestRegressor`, kept abstract: its
`feature_importances_` array and its `predict` on already-scaled inputs. -/
structure RFModel where
  importances : List ℚ
  predictScaled : List Vec6 → List ℚ

/-- Python `scaler.transform` on a single row. -/
def scaleVec (sc : Scaler) (v : Vec6) : Vec6 :=
  fun j => (v j - sc.mean j) / sc.scale j

/-- Python `DynamicPricingModel.predict` (lines 131–150): raises `ValueError` when
`self.is_trained` is false, before touching scaler or model; otherwise scales
the inputs and runs the ensemble (exceptions inside the `try` are re-raised). -/
def predict (st : ModelState RFModel Scaler) (X : List Vec6) :
    Except PricingError (List ℚ) :=
  if st.is_trained = false then .error .untrainedError
  else
    match st.scaler, st.model with
    | some sc, some m => .ok (m.predictScaled (X.map (scaleVec sc)))
    | _, _ => .error .attributeError

/-- Build the single `FeatureVector` of `predict_single`. -/
def mkVec6 (base_price : ℚ) (demand : ℚ) (competition_price : ℚ)
    (time_of_day : ℚ) (day_of_week : ℚ) (season : ℚ) : Vec6 :=
  fun j =>
    match j with
    | ⟨0, _⟩ => base_price
    | ⟨1, _⟩ => demand
    | ⟨2, _⟩ => competition_price
    | ⟨3, _⟩ => time_of_day
    | ⟨4, _⟩ => day_of_week
    | ⟨5, _⟩ => season

/-- Python `DynamicPricingModel.predict_single` (lines 152–174): wraps the six
arguments into one row, calls `predict`, returns `float(prediction[0])`. -/
def predict_single (st : ModelState RFModel Scaler)
    (base_price demand competition_price time_of_day day_of_week season : ℚ) :
    Except PricingError ℚ := do
  let p ← predict st
    [mkVec6 base_price demand competition_price time_of_day day_of_week season]
  match p.head? with
  | some q => .ok q
  | none => .error .indexError

/-- The fixed feature-name list of `get_feature_importance`. -/
def featureNames : List String :=
  ["base_price", "demand", "competition_price",
   "time_of_day", "day_of_week", "season"]

/-- Python `DynamicPricingModel.get_feature_importance` (lines 209–225): `{}` when
untrained; otherwise `dict(zip(feature_names, self.model.feature_importances_))`
(an `AttributeError` if `self.model` were `None` while the flag is set). -/
def get_feature_importance (st : ModelState RFModel Scaler) :
    Except PricingError (List (String × ℚ)) :=
  if st.is_trained = false then .ok []
  else
    match st.model with
    | some m => .ok (featureNames.zip m.importances)
    | none => .error .attributeError

/-! ## Scaler fitting inside `train` (`src/ai_model.py`, lines 91–98)

`train_test_split(features, targets, test_size=0.2, random_state=42)` draws a
permutation of `range(n)` that depends only on the length `n` and the fixed
`random_state` (never on the feature values); the first `ceil(0.2*n)` permuted
indices form the test split, the remaining ones the training split.  The
permutation itself (a Mersenne–Twister output) is kept as an explicit
parameter `p`; every statement below is proved for all `p`, hence in
particular for sklearn's. -/

/-- Python `ceil(0.2 * n)`, sklearn's test-set size for a fractional `test_size`. -/
def testSize (n : ℕ) : ℕ := (n + 4) / 5

/-- Training-split indices: the permuted indices after the first
`testSize n` (sklearn: `ind_train = permutation[n_test:]`). -/
def trainIndices (n : ℕ) (p : List ℕ) : List ℕ := p.drop (testSize n)

/-- Python `X[indices]`: select the rows of `X` at the given indices. -/
def selectRows (X : List Vec6) (idxs : List ℕ) : List Vec6 :=
  idxs.filterMap fun i => X.get? i

/-- Column mean over a batch of rows (`StandardScaler.mean_`). -/
def colMean (rows : List Vec6) (j : Fin 6) : ℚ :=
  (rows.map fun r => r j).sum / rows.length

/-- Column variance (ddof = 0) over a batch of rows (`StandardScaler.var_`;
the stored `scale_` is its square root, left symbolic here since it is
irrational in general — equality of variances is equality of scales). -/
def colVar (rows : List Vec6) (j : Fin 6) : ℚ :=
  (rows.map fun r => (r j - colMean rows j) ^ 2).sum / rows.length

/-- The `ScalingParameters` fitted by `self.scaler.fit_transform(X_train)`:
per-feature mean and variance of the training split only. -/
def trainScalerParams (p : List ℕ) (X : List Vec6) :
    (Fin 6 → ℚ) × (Fin 6 → ℚ) :=
  let rows := selectRows X (trainIndices X.length p)
  (colMean rows, colVar rows)

/-! ## Tabular data model (`src/data_pipeline.py`)

A DataFrame cell of one of the seven numeric-ish columns is either a number,
a non-numeric (string) value — which makes the whole column `object`-dtype —
or missing (`NaN`).  `product_id` (string) and `timestamp` (datetime) are
modelled as always-present fields; neither is selected by
`select_dtypes(include=[np.number])`. -/

inductive Cell where
  | num : ℚ → Cell
  | txt : String → Cell
  | na : Cell
deriving DecidableEq, Repr

/-- The seven numeric columns of the generated schema. -/
inductive NumCol where
  | base_price | current_price | demand | competition_price
  | time_of_day | day_of_week | season
deriving DecidableEq, Repr, Fintype

/-- A calendar instant: day index (days since the epoch 1970-01-01, which was
a Thursday) plus the hour of day.  `timedelta(days=k)` shifts only `day`. -/
structure DateTime where
  day : ℤ
  hour : ℕ
deriving DecidableEq, Repr

/-- Python `t + timedelta(days=k)`. -/
def addDays (t : DateTime) (k : ℤ) : DateTime := { t with day := t.day + k }

/-- The month (1–12) of a proleptic-Gregorian day index, via the standard
civil-from-days algorithm (Python's `datetime.month` on the same calendar). -/
def civilMonth (z : ℤ) : ℤ :=
  let doe := (z + 719468) % 146097
  let yoe := (doe - doe / 1460 + doe / 36524 - doe / 146096) / 365
  let doy := doe - (365 * yoe + yoe / 4 - yoe / 100)
  let mp := (5 * doy + 2) / 153
  if mp < 10 then mp + 3 else mp - 9

/-- Python's `weekday()` (Monday = 0). -/
def weekdayOf (t : DateTime) : ℕ := ((t.day + 3) % 7).toNat

/-- Python `(timestamp.month - 1) // 3`. -/
def seasonOf (t : DateTime) : ℕ := ((civilMonth t.day - 1) / 3).toNat

/-- One row of the pipeline's input DataFrame. -/
structure Record where
  product_id : String
  timestamp : DateTime
  cells : NumCol → Cell

instance : DecidableEq Record := fun a b =>
  if h : a.product_id = b.product_id ∧ a.timestamp = b.timestamp ∧
      ∀ c, a.cells c = b.cells c then
    isTrue (by
      obtain ⟨hp, ht, hc⟩ := h
      cases a; cases b
      simp only [Record.mk.injEq]
      exact ⟨hp, ht, funext hc⟩)
  else
    isFalse fun he =>
      h ⟨congrArg Record.product_id he, congrArg Record.timestamp he,
        fun c => congrFun (congrArg Record.cells he) c⟩

/-- Columns of the transformed DataFrame: the originals plus the derived
numeric `price_ratio` (`demand_level` is categorical, kept apart). -/
inductive TCol where
  | orig : NumCol → TCol
  | price_ratio : TCol
deriving DecidableEq, Repr, Fintype

/-- One row of the transformed DataFrame. -/
structure TRecord where
  product_id : String
  timestamp : DateTime
  cells : TCol → Cell
  demand_level : Option String

instance : DecidableEq TRecord := fun a b =>
  if h : a.product_id = b.product_id ∧ a.timestamp = b.timestamp ∧
      (∀ c, a.cells c = b.cells c) ∧ a.demand_level = b.demand_level then
    isTrue (by
      obtain ⟨hp, ht, hc, hd⟩ := h
      cases a; cases b
      simp only [TRecord.mk.injEq]
      exact ⟨hp, ht, funext hc, hd⟩)
  else
    isFalse fun he =>
      h ⟨congrArg TRecord.product_id he, congrArg TRecord.timestamp he,
        fun c => congrFun (congrArg TRecord.cells he) c,
        congrArg TRecord.demand_level he⟩

/-! ## Shared list machinery: duplicates, median, quantile -/

/-- Python `drop_duplicates()` (keep the first occurrence): drop every row equal to
one seen before. -/
def dedupSeen {α : Type} [DecidableEq α] (seen : List α) : List α → List α
  | [] => []
  | x :: xs =>
      if x ∈ seen then dedupSeen seen xs
      else x :: dedupSeen (x :: seen) xs

/-- Python `duplicated().sum()`: the number of rows for which an identical row
appeared earlier. -/
def countDups {α : Type} [DecidableEq α] (seen : List α) : List α → ℕ
  | [] => 0
  | x :: xs =>
      if x ∈ seen then 1 + countDups seen xs
      else countDups (x :: seen) xs

/-- Python `Series.median()` (skipna): sort, middle element, or mean of the two
middle elements; `None` (`NaN`) on an empty list. -/
def median (xs : List ℚ) : Option ℚ :=
  match xs with
  | [] => none
  | _ =>
      let s := xs.insertionSort (· ≤ ·)
      let n := s.length
      if n % 2 = 1 then some (s.getD (n / 2) 0)
      else some ((s.getD (n / 2 - 1) 0 + s.getD (n / 2) 0) / 2)

/-- Python `Series.quantile(p)` with pandas' linear interpolation; `None` (`NaN`)
on an empty list. -/
def quantile (xs : List ℚ) (p : ℚ) : Option ℚ :=
  match xs with
  | [] => none
  | _ =>
      let s := xs.insertionSort (· ≤ ·)
      let n := s.length
      let pos := p * ((n : ℚ) - 1)
      let f := ⌊pos⌋.toNat
      let lo := s.getD f 0
      let hi := s.getD (f + 1) lo
      some (lo + (pos - (f : ℚ)) * (hi - lo))

/-- The numeric values of a column (missing and non-numeric skipped). -/
def numsOf {ρ : Type} (get : ρ → Cell) (rs : List ρ) : List ℚ :=
  rs.filterMap fun r =>
    match get r with
    | .num q => some q
    | _ => none

/-- Does a column contain a non-numeric value (making it `object`-dtype,
excluded from `select_dtypes(include=[np.number])` and poisoning
comparisons/`pd.cut`)? -/
def colHasTxt {ρ : Type} (get : ρ → Cell) (rs : List ρ) : Bool :=
  rs.any fun r =>
    match get r with
    | .txt _ => true
    | _ => false

/-- Python `x > 0` on a cell, as pandas evaluates it on a numeric column
(`NaN > 0` is false). -/
def cellPos (v : Cell) : Bool :=
  match v with
  | .num q => decide (0 < q)
  | _ => false

/-- Python `x < 0` on a cell (`NaN < 0` is false). -/
def cellNeg (v : Cell) : Bool :=
  match v with
  | .num q => decide (q < 0)
  | _ => false

/-! ## `DataPipeline.transform_data` (lines 138–178)

Steps, in source order: `drop_duplicates()`; fill `NaN`s of the numeric
columns with each column's median (object-dtype columns are not selected,
all-`NaN` columns have a `NaN` median and stay missing); keep rows with
`current_price > 0` (comparing an object column raises `TypeError`); derive
`price_ratio = current_price / base_price` (string-typed operands raise);
derive `demand_level = pd.cut(demand, bins=[0,100,300,500,inf],
labels=[low,medium,high,very_high])` (default right-closed intervals, so a
value `≤ 0` falls outside every bin; `pd.cut` on an object column raises).
Any raise is caught by the surrounding `try`, logged via `logger.error`, and
the original input is returned. -/

/-- One filled cell: on a numeric (txt-free) column, replace `NaN` by the
column's median when it exists. -/
def fillCell {ρ : Type} (get : ρ → Cell) (rs : List ρ) (v : Cell) : Cell :=
  if colHasTxt get rs then v
  else
    match v with
    | .na =>
        match median (numsOf get rs) with
        | some m => .num m
        | none => .na
    | _ => v

/-- Python `df[numeric_cols] = df[numeric_cols].fillna(df[numeric_cols].median())`
on the input schema. -/
def fillna (rs : List Record) : List Record :=
  rs.map fun r =>
    { r with cells := fun c => fillCell (fun r' => r'.cells c) rs (r.cells c) }

/-- The same imputation on the transformed schema, where `price_ratio` is a
further numeric column and categorical `demand_level` is not selected. -/
def fillnaT (ts : List TRecord) : List TRecord :=
  ts.map fun t =>
    { t with cells := fun c => fillCell (fun t' => t'.cells c) ts (t.cells c) }

/-- Python `current_price / base_price` on cells: missing operands propagate
(`NaN`); a zero divisor yields a present value (pandas: `±inf`; total `ℚ`
division stands in — like `inf` it is never missing, which is all the
statements below use). -/
def ratioCell (cur base : Cell) : Cell :=
  match cur, base with
  | .num c, .num b => .num (c / b)
  | _, _ => .na

/-- Python `pd.cut(·, bins=[0, 100, 300, 500, inf],
labels=['low', 'medium', 'high', 'very_high'])` on one value: right-closed
intervals `(0,100], (100,300], (300,500], (500,∞)`; values outside every bin
(in particular `demand ≤ 0`) and missing values get no label. -/
def demandLabel (v : Cell) : Option String :=
  match v with
  | .num d =>
      if 0 < d ∧ d ≤ 100 then some "low"
      else if 100 < d ∧ d ≤ 300 then some "medium"
      else if 300 < d ∧ d ≤ 500 then some "high"
      else if 500 < d then some "very_high"
      else none
  | _ => none

/-- The two derived columns added to one (deduplicated, imputed, filtered)
row. -/
def deriveRec (r : Record) : TRecord :=
  { product_id := r.product_id
    timestamp := r.timestamp
    cells := fun c =>
      match c with
      | .orig c0 => r.cells c0
      | .price_ratio => ratioCell (r.cells .current_price) (r.cells .base_price)
    demand_level := demandLabel (r.cells .demand) }

/-- Recomputation of the two derived columns on an already-transformed row
(the assignments overwrite the existing `price_ratio` / `demand_level`). -/
def deriveT (t : TRecord) : TRecord :=
  { t with
    cells := fun c =>
      match c with
      | .orig c0 => t.cells (.orig c0)
      | .price_ratio =>
          ratioCell (t.cells (.orig .current_price)) (t.cells (.orig .base_price))
    demand_level := demandLabel (t.cells (.orig .demand)) }

/-- The body of `transform_data`'s `try` block on the input schema; `.error`
marks a raised exception (object-dtype column hitting a comparison, an
arithmetic operation, or `pd.cut`). -/
def transformCore (rs : List Record) : Except Unit (List TRecord) :=
  let d1 := dedupSeen [] rs
  let d2 := fillna d1
  if colHasTxt (fun r => r.cells .current_price) d2 then .error ()
  else
    let d3 := d2.filter fun r => cellPos (r.cells .current_price)
    if colHasTxt (fun r => r.cells .base_price) d3 then .error ()
    else if colHasTxt (fun r => r.cells .demand) d3 then .error ()
    else .ok (d3.map deriveRec)

/-- The same `try` body applied to an already-transformed DataFrame (its
schema now carries `price_ratio` and `demand_level`). -/
def transformTCore (ts : List TRecord) : Except Unit (List TRecord) :=
  let d1 := dedupSeen [] ts
  let d2 := fillnaT d1
  if colHasTxt (fun t => t.cells (.orig .current_price)) d2 then .error ()
  else
    let d3 := d2.filter fun t => cellPos (t.cells (.orig .current_price))
    if colHasTxt (fun t => t.cells (.orig .base_price)) d3 then .error ()
    else if colHasTxt (fun t => t.cells (.orig .demand)) d3 then .error ()
    else .ok (d3.map deriveT)

/-- Levels of the `logging` events the pipeline emits. -/
inductive LogLevel where
  | info | warning | error
deriving DecidableEq, Repr

/-- Python `DataPipeline.transform_data` with its `try`/`except`: on success the
transformed frame plus an info-level log line; on any internal failure
`logger.error(...)` fires and the original input is returned unmodified. -/
def transform_data (rs : List Record) :
    (List Record ⊕ List TRecord) × List LogLevel :=
  match transformCore rs with
  | .ok ts => (.inr ts, [.info])
  | .error _ => (.inl rs, [.error])

/-- A second application of `transform_data`, on the output of a successful
first one. -/
def transformT_data (ts : List TRecord) : (List TRecord ⊕ List TRecord) × List LogLevel :=
  match transformTCore ts with
  | .ok ts' => (.inr ts', [.info])
  | .error _ => (.inl ts, [.error])

/-! ## `DataPipeline.validate_data` (lines 103–136)

Builds `{total_records, missing_values, duplicate_records, ...}` and then the
negative-price and demand-outlier counts (`data_types` and `validated_at` are
pure metadata and are not modelled).  Comparing or taking quantiles of an
object-dtype column raises a `TypeError`, and `validate_data` has no
`try`/`except`, so such input produces no report at all. -/

structure ValidationReport where
  total_records : ℕ
  missing_values : NumCol → ℕ
  duplicate_records : ℕ
  negative_prices : ℕ
  demand_outliers : ℕ
deriving DecidableEq

/-- Tukey outlier test for one value at the given fences (`NaN` quantiles —
empty numeric column — make both comparisons false). -/
def isOutlier (q1 q3 : Option ℚ) (v : ℚ) : Bool :=
  match q1, q3 with
  | some a, some b => decide (v < a - 3/2 * (b - a)) || decide (v > b + 3/2 * (b - a))
  | _, _ => false

/-- Python `DataPipeline.validate_data`. -/
def validate_data (rs : List Record) : Except Unit ValidationReport :=
  if colHasTxt (fun r => r.cells .current_price) rs then .error ()
  else if colHasTxt (fun r => r.cells .demand) rs then .error ()
  else
    let dem := numsOf (fun r => r.cells .demand) rs
    let q1 := quantile dem (1/4)
    let q3 := quantile dem (3/4)
    .ok
      { total_records := rs.length
        missing_values := fun c => (rs.filter fun r => r.cells c = .na).length
        duplicate_records := countDups [] rs
        negative_prices := (rs.filter fun r => cellNeg (r.cells .current_price)).length
        demand_outliers := (dem.filter (isOutlier q1 q3)).length }

/-! ## `DataPipeline.generate_sample_data` (lines 30–71)

The function first executes `np.random.seed(42)` — both compared invocations
therefore start from the same generator state, modelled by passing the same
post-seed state `s0`.  The draws themselves (a Mersenne–Twister stream) are
kept behind an explicit `Sampler` interface; `numpy`'s documented range
contracts (`uniform(lo, hi) ∈ [lo, hi)`, `randint(lo, hi) ∈ [lo, hi)`) appear
as hypotheses where a statement needs them.  `datetime.now()` is an explicit
`now` argument: it is the one input that is *not* an argument of the Python
function. -/

structure Sampler (σ : Type) where
  uniform : ℚ → ℚ → σ → ℚ × σ
  randint : ℤ → ℤ → σ → ℤ × σ

/-- Python `round(x, 2)` (the 1/100-exactness is all the statements below use; the
half-even tie rule of `numpy`/Python differs from Mathlib's `round` only on
exact ties, which no bound here depends on). -/
def round2 (x : ℚ) : ℚ := (round (x * 100) : ℤ) / 100

/-- Python `f'PROD-{product_id:04d}'`. -/
def productTag (n : ℕ) : String :=
  let s := toString n
  "PROD-" ++ String.mk (List.replicate (4 - s.length) '0') ++ s

/-- One generated row, with the exact field expressions of lines 57–67. -/
structure GRecord where
  product_id : String
  timestamp : DateTime
  base_price : ℚ
  current_price : ℚ
  demand : ℤ
  competition_price : ℚ
  time_of_day : ℕ
  day_of_week : ℕ
  season : ℕ
deriving DecidableEq, Repr

/-- Body of the inner `for day in range(days)` loop, iterated from day index
`d` for `k` further days: per day draw `demand ~ randint(50, 500)`, then
`competition_price = base_price * uniform(0.85, 1.15)`, then
`current_price = base_price * uniform(0.9, 1.1)` (draw order as in the
source), prices rounded to 2 decimals. -/
def genDays {σ : Type} (S : Sampler σ) (base : ℚ) (pid : ℕ)
    (start : DateTime) : ℕ → ℕ → σ → List GRecord × σ
  | _, 0, s => ([], s)
  | d, k + 1, s =>
      let ts := addDays start d
      let dem := S.randint 50 500 s
      let u1 := S.uniform (85/100) (115/100) dem.2
      let u2 := S.uniform (9/10) (11/10) u1.2
      let r : GRecord :=
        { product_id := productTag pid
          timestamp := ts
          base_price := round2 base
          current_price := round2 (base * u2.1)
          demand := dem.1
          competition_price := round2 (base * u1.1)
          time_of_day := ts.hour
          day_of_week := weekdayOf ts
          season := seasonOf ts }
      let rest := genDays S base pid start (d + 1) k u2.2
      (r :: rest.1, rest.2)

/-- Body of the outer `for product_id in range(1, n_products + 1)` loop, from
product id `pid` for `k` further products: draw one
`base_price ~ uniform(10, 200)` per product, then that product's daily rows. -/
def genProducts {σ : Type} (S : Sampler σ) (start : DateTime) (days : ℕ) :
    ℕ → ℕ → σ → List GRecord × σ
  | _, 0, s => ([], s)
  | pid, k + 1, s =>
      let bp := S.uniform 10 200 s
      let rows := genDays S bp.1 pid start 0 days bp.2
      let rest := genProducts S start days (pid + 1) k rows.2
      (rows.1 ++ rest.1, rest.2)

/-- Python `DataPipeline.generate_sample_data(n_products, days)`:
`start_date = now - timedelta(days=days)` is computed once, then the nested
loops run.  `s0` is the generator state right after `np.random.seed(42)`. -/
def generate_sample_data {σ : Type} (S : Sampler σ) (s0 : σ) (now : DateTime)
    (n_products days : ℕ) : List GRecord :=
  (genProducts S (addDays now (-(days : ℤ))) days 1 n_products s0).1

/-- A generated row as a pipeline `Record` (every numeric cell present). -/
def toRecord (g : GRecord) : Record :=
  { product_id := g.product_id
    timestamp := g.timestamp
    cells := fun c =>
      match c with
      | .base_price => .num g.base_price
      | .current_price => .num g.current_price
      | .demand => .num (g.demand : ℚ)
      | .competition_price => .num g.competition_price
      | .time_of_day => .num (g.time_of_day : ℚ)
      | .day_of_week => .num (g.day_of_week : ℚ)
      | .season => .num (g.season : ℚ) }

/-- A deterministic stand-in for the seeded `numpy` generator: every draw
returns the lower bound of its range (which satisfies both range
contracts). -/
def loSampler : Sampler Unit :=
  { uniform := fun lo _ s => (lo, s)
    randint := fun lo _ s => (lo, s) }

/-! ## Auxiliary predicates and concrete instances used in the statements -/

instance {ε α : Type} [DecidableEq ε] [DecidableEq α] :
    DecidableEq (Except ε α) := fun a b =>
  match a, b with
  | .ok x, .ok y =>
      if h : x = y then isTrue (by rw [h]) else isFalse (by simp [h])
  | .error e, .error e' =>
      if h : e = e' then isTrue (by rw [h]) else isFalse (by simp [h])
  | .ok _, .error _ => isFalse (by simp)
  | .error _, .ok _ => isFalse (by simp)

/-- Is a cell a present numeric value? -/
def isNum (v : Cell) : Bool :=
  match v with
  | .num _ => true
  | _ => false

/-- The fields of a generated record that are computed from the seeded random
stream (everything except the four timestamp-derived fields). -/
def rngFields (g : GRecord) : String × ℚ × ℚ × ℤ × ℚ :=
  (g.product_id, g.base_price, g.current_price, g.demand, g.competition_price)

/-- Model states reachable from `__init__` without a `train` call and without
a successful `load_model` (failed loads are allowed). -/
inductive NeverTrained : ModelState RFModel Scaler → Prop where
  | init : NeverTrained (initModel RFModel Scaler)
  | failedLoad (st : ModelState RFModel Scaler) (b : Blob RFModel Scaler) :
      NeverTrained st → (load_model st b).2 = false →
      NeverTrained (load_model st b).1

/-- A constant feature row. -/
def cvec (q : ℚ) : Vec6 := fun _ => q

/-- A row whose numeric cells are all `v` except the `demand` column. -/
def mkRec (dem : Cell) (v : ℚ) : Record :=
  { product_id := "p"
    timestamp := { day := 0, hour := 0 }
    cells := fun c =>
      match c with
      | .demand => dem
      | _ => .num v }

/-- Witness row with a missing demand (imputation target). -/
def recNaDemand : Record := mkRec .na 10

/-- Witness row with demand 200 and the same remaining cells. -/
def rec200 : Record := mkRec (.num 200) 10

/-- Witness row with demand 0 (falls outside every `pd.cut` bin). -/
def recDemand0 : Record := mkRec (.num 0) 10

/-- Witness row whose demand cell holds a string: the demand column becomes
`object`-dtype and `pd.cut` raises. -/
def recBad : Record := mkRec (.txt "n/a") 10

/-- Witness row with demand 100. -/
def rec100 : Record := mkRec (.num 100) 10

/-- A row with the given demand and base-price cells; the remaining numeric
cells hold 10. -/
def mkRec2 (dem base : Cell) : Record :=
  { product_id := "p"
    timestamp := { day := 0, hour := 0 }
    cells := fun c =>
      match c with
      | .demand => dem
      | .base_price => base
      | _ => .num 10 }

/-- Witness row: demand missing, base price missing. -/
def recImputeNa : Record := mkRec2 .na .na

/-- Witness row: demand 200, base price missing, all other cells equal to
those of `recImputeNa` — median imputation of the demand column makes the two
rows identical. -/
def recImpute200 : Record := mkRec2 (.num 200) .na

/-- Witness model state: trained, with a concrete importance vector. -/
def trainedState : ModelState RFModel Scaler :=
  { model := some { importances := [1, 0, 0, 0, 0, 0], predictScaled := fun _ => [] }
    scaler := some { mean := cvec 0, scale := cvec 1 }
    is_trained := true }

/-! # Theorems -/

/-- C1, counterexample.  A blob that unpickles to a dictionary carrying a
`'model'` entry but no `'scaler'` entry makes `load_model` overwrite
`self.model` before the `KeyError` fires: the call signals the load error
(returns `False`) but does NOT leave the prior in-memory model as it was. -/
theorem c1_load_not_atomic_counterexample :
    (load_model (M := ℕ) (S := ℕ)
        { model := some 0, scaler := some 0, is_trained := true }
        (Blob.record (some 1) none)).2 = false ∧
    (load_model (M := ℕ) (S := ℕ)
        { model := some 0, scaler := some 0, is_trained := true }
        (Blob.record (some 1) none)).1 ≠
      { model := some 0, scaler := some 0, is_trained := true } := by
  decide

/-- C1, amended.  `load_model` either fully succeeds (replacing model, scaler
and the trained flag together and returning `True`), or returns `False`; on
failure the prior scaler and trained flag are always preserved, and the prior
model is preserved except when the blob is a dictionary with a model entry but
no scaler entry, in which case the in-memory model has already been replaced
by the blob's model. -/
theorem c1_load_model_amended {M S : Type} (st : ModelState M S) (b : Blob M S) :
    (∃ m s, b = Blob.record (some m) (some s) ∧
        load_model st b =
          ({ model := some m, scaler := some s, is_trained := true }, true)) ∨
    ((load_model st b).2 = false ∧
      (load_model st b).1.scaler = st.scaler ∧
      (load_model st b).1.is_trained = st.is_trained ∧
      ((load_model st b).1.model = st.model ∨
        ∃ m, b = Blob.record (some m) none ∧
          (load_model st b).1.model = some m)) := by
  cases b with
  | absent => exact Or.inr ⟨rfl, rfl, rfl, Or.inl rfl⟩
  | record om os =>
      cases om with
      | none => exact Or.inr ⟨rfl, rfl, rfl, Or.inl rfl⟩
      | some m =>
          cases os with
          | none => exact Or.inr ⟨rfl, rfl, rfl, Or.inr ⟨m, rfl, rfl⟩⟩
          | some s => exact Or.inl ⟨m, s, rfl, rfl⟩

/-- On every state reachable without a train or successful load, the trained
flag is still down (a failed `load_model` never sets it). -/
theorem neverTrained_flag (st : ModelState RFModel Scaler)
    (h : NeverTrained st) : st.is_trained = false := by
  induction h with
  | init => rfl
  | failedLoad st' b _ hfail ih =>
      cases b with
      | absent => exact ih
      | record om os =>
          cases om with
          | none => exact ih
          | some m =>
              cases os with
              | none => exact ih
              | some s => exact absurd hfail (by simp [load_model])

/-- C3: on every freshly constructed model on which no `train` and no
successful `load_model` has happened, `predict` raises the
"Model must be trained before prediction" `ValueError` for every input — and
so does `predict_single` — and never returns a numeric price. -/
theorem c3_untrained_predict_errors (st : ModelState RFModel Scaler)
    (h : NeverTrained st) :
    (∀ X, predict st X = .error .untrainedError) ∧
    ∀ bp dm cp td dw ss,
      predict_single st bp dm cp td dw ss = .error .untrainedError := by
  have hf : st.is_trained = false := neverTrained_flag st h
  refine ⟨fun X => ?_, fun bp dm cp td dw ss => ?_⟩
  · simp [predict, hf]
  · have hp : predict st [mkVec6 bp dm cp td dw ss] = .error .untrainedError := by
      simp [predict, hf]
    unfold predict_single
    rw [hp]
    rfl

/-- C3, witness: the fresh state errors on a concrete single prediction. -/
theorem c3_untrained_predict_errors_witness :
    predict (initModel RFModel Scaler) [] = .error .untrainedError ∧
    predict_single (initModel RFModel Scaler) 50 450 55 18 5 2 =
      .error .untrainedError :=
  ⟨(c3_untrained_predict_errors _ NeverTrained.init).1 [],
   (c3_untrained_predict_errors _ NeverTrained.init).2 50 450 55 18 5 2⟩

/-- C6: `get_feature_importance` returns the empty mapping on an untrained
model, and on a trained model (whose fitted ensemble reports, per sklearn's
contract, six non-negative importances summing to 1) it returns exactly the
six expected keys in order, with non-negative values summing to 1. -/
theorem c6_feature_importance :
    (∀ st : ModelState RFModel Scaler, st.is_trained = false →
        get_feature_importance st = .ok []) ∧
    ∀ (st : ModelState RFModel Scaler) (m : RFModel),
      st.is_trained = true → st.model = some m →
      m.importances.length = 6 → (∀ q ∈ m.importances, 0 ≤ q) →
      m.importances.sum = 1 →
      ∃ out, get_feature_importance st = .ok out ∧
        out.map Prod.fst = featureNames ∧
        (∀ pr ∈ out, 0 ≤ pr.2) ∧
        (out.map Prod.snd).sum = 1 := by
  constructor
  · intro st hst
    simp [get_feature_importance, hst]
  · intro st m hst hm hlen hnn hsum
    refine ⟨featureNames.zip m.importances, ?_, ?_, ?_, ?_⟩
    · simp [get_feature_importance, hst, hm]
    · exact List.map_fst_zip _ _ (by rw [hlen]; rfl)
    · intro pr hpr
      obtain ⟨a, q⟩ := pr
      exact hnn q (List.of_mem_zip hpr).2
    · rw [List.map_snd_zip _ _ (by rw [hlen]; rfl)]
      exact hsum

/-- C6, witness: the fresh state yields `[]`; a concrete trained state with
importances `[1,0,0,0,0,0]` yields the six keys with sum 1. -/
theorem c6_feature_importance_witness :
    get_feature_importance (initModel RFModel Scaler) = .ok [] ∧
    ∃ out, get_feature_importance trainedState = .ok out ∧
      out.map Prod.fst = featureNames ∧
      (∀ pr ∈ out, 0 ≤ pr.2) ∧
      (out.map Prod.snd).sum = 1 :=
  ⟨c6_feature_importance.1 _ rfl,
   c6_feature_importance.2 trainedState
     { importances := [1, 0, 0, 0, 0, 0], predictScaled := fun _ => [] }
     rfl rfl rfl (by decide) (by norm_num [List.sum_cons, List.sum_nil])⟩

/-- C4: the `ScalingParameters` fitted inside `train` depend on the training
split only.  `p` is the index permutation drawn by
`train_test_split(..., random_state=42)`, which is a function of the data
length alone; for any such permutation, two feature matrices of the same
length that agree on every training-split row fit identical parameters, i.e.
perturbing test-split-only values cannot change them. -/
theorem c4_scaler_from_train_split_only (p : List ℕ) (X Y : List Vec6)
    (hlen : X.length = Y.length)
    (hagree : ∀ i ∈ trainIndices X.length p, X.get? i = Y.get? i) :
    trainScalerParams p X = trainScalerParams p Y := by
  have hsel : selectRows X (trainIndices X.length p) =
      selectRows Y (trainIndices Y.length p) := by
    rw [← hlen]
    exact List.filterMap_congr hagree
  unfold trainScalerParams
  rw [hsel]

/-- C4, witness: three rows, permutation `[0,1,2]` (test split `[0]`, train
split `[1,2]`); changing row 0 changes the matrix but not the fitted
parameters. -/
theorem c4_scaler_from_train_split_only_witness :
    ([cvec 5, cvec 1, cvec 2] : List Vec6) ≠ [cvec 9, cvec 1, cvec 2] ∧
    trainScalerParams [0, 1, 2] [cvec 5, cvec 1, cvec 2] =
      trainScalerParams [0, 1, 2] [cvec 9, cvec 1, cvec 2] :=
  ⟨by decide, c4_scaler_from_train_split_only [0, 1, 2] _ _ rfl (by decide)⟩

/-- Rows flagged as duplicates of an earlier row, plus the rows kept by
first-occurrence deduplication, account for the whole sequence. -/
theorem countDups_add_dedup_length {α : Type} [DecidableEq α] (l : List α) :
    ∀ seen, countDups seen l + (dedupSeen seen l).length = l.length := by
  induction l with
  | nil => intro seen; rfl
  | cons x xs ih =>
      intro seen
      by_cases hx : x ∈ seen
      · simp only [countDups, dedupSeen, if_pos hx, List.length_cons]
        have := ih seen
        omega
      · simp only [countDups, dedupSeen, if_neg hx, List.length_cons]
        have := ih (x :: seen)
        omega

/-- C7: whenever `validate_data` produces a report, its `total_records` is
the number of input rows, its `duplicate_records` counts exactly the rows
for which an identical row appeared earlier, and duplicates plus the distinct
rows (each counted once) account for every record. -/
theorem c7_validation_counts (rs : List Record) (rep : ValidationReport)
    (h : validate_data rs = .ok rep) :
    rep.total_records = rs.length ∧
    rep.duplicate_records = countDups [] rs ∧
    rep.duplicate_records + (dedupSeen [] rs).length = rs.length := by
  unfold validate_data at h
  split at h
  · exact absurd h (by simp)
  · split at h
    · exact absurd h (by simp)
    · injection h with h'
      subst h'
      exact ⟨rfl, rfl, countDups_add_dedup_length rs []⟩

/-- C7, witness: a three-row set whose third row repeats the first. -/
theorem c7_validation_counts_witness :
    ∃ rep, validate_data [rec100, rec200, rec100] = .ok rep ∧
      rep.total_records = 3 ∧
      rep.duplicate_records = countDups [] [rec100, rec200, rec100] ∧
      rep.duplicate_records + (dedupSeen [] [rec100, rec200, rec100]).length = 3 := by
  cases hv : validate_data [rec100, rec200, rec100] with
  | error e => cases e; exact absurd hv (by decide)
  | ok rep =>
      obtain ⟨h1, h2, h3⟩ := c7_validation_counts _ _ hv
      exact ⟨rep, rfl, h1, h2, h3⟩

/-- C9, counterexample.  On a record set whose demand column holds a
non-numeric value, `pd.cut` raises, the `except` branch returns the original
input — but the event logged is error-level, not warning-level as claimed. -/
theorem c9_error_level_counterexample :
    transform_data [recBad] = (.inl [recBad], [LogLevel.error]) ∧
    LogLevel.warning ∉ [LogLevel.error] := by decide

/-- C9, amended: on every record set on which an internal step of the
transform raises, `transform_data` returns the original input unmodified
instead of raising, and surfaces the failure as an error-level (not
warning-level) log event. -/
theorem c9_failure_returns_input_amended (rs : List Record)
    (h : transformCore rs = .error ()) :
    transform_data rs = (.inl rs, [LogLevel.error]) := by
  unfold transform_data
  rw [h]

/-- C9, witness: the concrete failing input. -/
theorem c9_failure_returns_input_amended_witness :
    transform_data [recBad] = (.inl [recBad], [LogLevel.error]) :=
  c9_failure_returns_input_amended [recBad] (by decide)

/-- Deduplication only keeps rows of the input. -/
theorem mem_of_mem_dedupSeen {α : Type} [DecidableEq α] {x : α} :
    ∀ (l seen : List α), x ∈ dedupSeen seen l → x ∈ l := by
  intro l
  induction l with
  | nil => intro seen h; exact absurd h (by simp [dedupSeen])
  | cons y ys ih =>
      intro seen h
      unfold dedupSeen at h
      split at h
      · exact List.mem_cons_of_mem y (ih seen h)
      · rcases List.mem_cons.mp h with h' | h'
        · exact h' ▸ List.mem_cons_self y ys
        · exact List.mem_cons_of_mem y (ih (y :: seen) h')

/-- Deduplication never emits a row it has already seen. -/
theorem not_seen_of_mem_dedupSeen {α : Type} [DecidableEq α] {x : α} :
    ∀ (l seen : List α), x ∈ dedupSeen seen l → x ∉ seen := by
  intro l
  induction l with
  | nil => intro seen h; exact absurd h (by simp [dedupSeen])
  | cons y ys ih =>
      intro seen h
      unfold dedupSeen at h
      split at h
      · exact ih seen h
      · rcases List.mem_cons.mp h with h' | h'
        · subst h'; assumption
        · intro hx
          exact ih (y :: seen) h' (List.mem_cons_of_mem y hx)

/-- The output of first-occurrence deduplication has no duplicates. -/
theorem nodup_dedupSeen {α : Type} [DecidableEq α] :
    ∀ (l seen : List α), (dedupSeen seen l).Nodup := by
  intro l
  induction l with
  | nil => intro seen; simp [dedupSeen]
  | cons y ys ih =>
      intro seen
      unfold dedupSeen
      split
      · exact ih seen
      · refine List.nodup_cons.mpr ⟨fun hy => ?_, ih (y :: seen)⟩
        exact not_seen_of_mem_dedupSeen ys (y :: seen) hy (List.mem_cons_self y seen)

/-- On a duplicate-free input disjoint from `seen`, deduplication is the
identity. -/
theorem dedupSeen_eq_self {α : Type} [DecidableEq α] :
    ∀ (l seen : List α), l.Nodup → (∀ x ∈ l, x ∉ seen) → dedupSeen seen l = l := by
  intro l
  induction l with
  | nil => intro seen _ _; rfl
  | cons y ys ih =>
      intro seen hnd hdisj
      unfold dedupSeen
      rw [if_neg (hdisj y (List.mem_cons_self y ys))]
      congr 1
      refine ih (y :: seen) (List.nodup_cons.mp hnd).2 ?_
      intro x hx
      rw [List.mem_cons]
      rintro (h' | h')
      · exact (List.nodup_cons.mp hnd).1 (h' ▸ hx)
      · exact hdisj x (List.mem_cons_of_mem y hx) h'

/-- Imputation never touches a present numeric cell. -/
theorem fillCell_num {ρ : Type} (get : ρ → Cell) (rs : List ρ) (q : ℚ) :
    fillCell get rs (.num q) = .num q := by
  unfold fillCell
  split <;> rfl

/-- A column whose cells are all present numbers is not `object`-dtype. -/
theorem colHasTxt_false {ρ : Type} (get : ρ → Cell) (l : List ρ)
    (h : ∀ r ∈ l, isNum (get r) = true) : colHasTxt get l = false := by
  rw [colHasTxt, List.any_eq_false]
  intro r hr
  have hn := h r hr
  cases hg : get r with
  | num q => simp
  | txt s => rw [hg] at hn; simp [isNum] at hn
  | na => rw [hg] at hn; simp [isNum] at hn

/-- On rows whose numeric cells are all present, imputation is the
identity. -/
theorem fillna_eq_self (rs : List Record)
    (h : ∀ r ∈ rs, ∀ c, isNum (r.cells c) = true) : fillna rs = rs := by
  unfold fillna
  conv_rhs => rw [← List.map_id rs]
  refine List.map_congr_left ?_
  intro r hr
  have hc : (fun c => fillCell (fun r' => r'.cells c) rs (r.cells c)) = r.cells := by
    funext c
    have hn := h r hr c
    cases hg : r.cells c with
    | num q => exact fillCell_num _ _ _
    | txt s => rw [hg] at hn; simp [isNum] at hn
    | na => rw [hg] at hn; simp [isNum] at hn
  rw [hc]
  rfl

/-- On transformed rows whose numeric cells are all present, imputation is
the identity. -/
theorem fillnaT_eq_self (ts : List TRecord)
    (h : ∀ t ∈ ts, ∀ c, isNum (t.cells c) = true) : fillnaT ts = ts := by
  unfold fillnaT
  conv_rhs => rw [← List.map_id ts]
  refine List.map_congr_left ?_
  intro t ht
  have hc : (fun c => fillCell (fun t' => t'.cells c) ts (t.cells c)) = t.cells := by
    funext c
    have hn := h t ht c
    cases hg : t.cells c with
    | num q => exact fillCell_num _ _ _
    | txt s => rw [hg] at hn; simp [isNum] at hn
    | na => rw [hg] at hn; simp [isNum] at hn
  rw [hc]
  rfl

/-- On a duplicate-free record set whose numeric cells are all present and
whose prices are all positive, the transform succeeds and only appends the
two derived columns to each row. -/
theorem transformCore_allnum (rs : List Record)
    (hnum : ∀ r ∈ rs, ∀ c, isNum (r.cells c) = true)
    (hnd : rs.Nodup)
    (hpos : ∀ r ∈ rs, cellPos (r.cells .current_price) = true) :
    transformCore rs = .ok (rs.map deriveRec) := by
  have hded : dedupSeen [] rs = rs := dedupSeen_eq_self rs [] hnd (by simp)
  have hfill : fillna rs = rs := fillna_eq_self rs hnum
  have hcur : colHasTxt (fun r => r.cells NumCol.current_price) rs = false :=
    colHasTxt_false _ rs fun r hr => hnum r hr _
  have hfilt : rs.filter (fun r => cellPos (r.cells NumCol.current_price)) = rs :=
    List.filter_eq_self.mpr hpos
  have hbase : colHasTxt (fun r => r.cells NumCol.base_price) rs = false :=
    colHasTxt_false _ rs fun r hr => hnum r hr _
  have hdem : colHasTxt (fun r => r.cells NumCol.demand) rs = false :=
    colHasTxt_false _ rs fun r hr => hnum r hr _
  unfold transformCore
  dsimp only []
  rw [hded, hfill, hcur, hfilt, hbase, hdem]
  simp

/-- Every record the transform outputs carries as `demand_level` exactly the
`pd.cut` label of its (post-imputation) demand cell. -/
theorem transform_output_demand_level (rs : List Record) (ts : List TRecord)
    (h : transformCore rs = .ok ts) :
    ∀ t ∈ ts, t.demand_level = demandLabel (t.cells (.orig .demand)) := by
  unfold transformCore at h
  dsimp only [] at h
  split at h
  · exact absurd h (by simp)
  · split at h
    · exact absurd h (by simp)
    · split at h
      · exact absurd h (by simp)
      · injection h with h'
        subst h'
        intro t ht
        obtain ⟨r, _, rfl⟩ := List.mem_map.mp ht
        rfl

/-- C8, counterexample.  A record with `demand = 0` — a non-negative demand —
receives NO `demand_level` label (`pd.cut`'s default bins are right-closed,
`(0,100], …`, so 0 falls outside every bin); moreover the edge value 100 is
labelled `low`, not the `medium` that right-open `[100,300)` buckets would
give. -/
theorem c8_demand_zero_unlabelled_counterexample :
    recDemand0.cells .demand = Cell.num 0 ∧
    Except.map (fun ts => ts.map TRecord.demand_level)
      (transformCore [recDemand0]) = .ok [none] ∧
    Except.map (fun ts => ts.map TRecord.demand_level)
      (transformCore [rec100]) = .ok [some "low"] := by
  decide

/-- C8, amended: in transform output, a present demand `d` is labelled by the
right-closed buckets `(0,100] ↦ low`, `(100,300] ↦ medium`,
`(300,500] ↦ high`, `(500,∞) ↦ very_high`, each positive demand receiving
exactly one label; a demand `≤ 0` (in particular 0) receives no label. -/
theorem c8_demand_level_buckets_amended (rs : List Record) (ts : List TRecord)
    (h : transformCore rs = .ok ts) (t : TRecord) (ht : t ∈ ts) (d : ℚ)
    (hd : t.cells (.orig .demand) = .num d) :
    (d ≤ 0 → t.demand_level = none) ∧
    (0 < d → d ≤ 100 → t.demand_level = some "low") ∧
    (100 < d → d ≤ 300 → t.demand_level = some "medium") ∧
    (300 < d → d ≤ 500 → t.demand_level = some "high") ∧
    (500 < d → t.demand_level = some "very_high") := by
  have hl : t.demand_level = demandLabel (.num d) := by
    rw [transform_output_demand_level rs ts h t ht, hd]
  rw [hl]
  refine ⟨?_, ?_, ?_, ?_, ?_⟩
  · intro h0
    show (if 0 < d ∧ d ≤ 100 then some "low"
      else if 100 < d ∧ d ≤ 300 then some "medium"
      else if 300 < d ∧ d ≤ 500 then some "high"
      else if 500 < d then some "very_high" else none) = none
    rw [if_neg (by rintro ⟨h1, _⟩; linarith),
      if_neg (by rintro ⟨h1, _⟩; linarith),
      if_neg (by rintro ⟨h1, _⟩; linarith),
      if_neg (by intro h1; linarith)]
  · intro h1 h2
    show (if 0 < d ∧ d ≤ 100 then some "low"
      else if 100 < d ∧ d ≤ 300 then some "medium"
      else if 300 < d ∧ d ≤ 500 then some "high"
      else if 500 < d then some "very_high" else none) = some "low"
    rw [if_pos ⟨h1, h2⟩]
  · intro h1 h2
    show (if 0 < d ∧ d ≤ 100 then some "low"
      else if 100 < d ∧ d ≤ 300 then some "medium"
      else if 300 < d ∧ d ≤ 500 then some "high"
      else if 500 < d then some "very_high" else none) = some "medium"
    rw [if_neg (by rintro ⟨_, hx⟩; linarith), if_pos ⟨h1, h2⟩]
  · intro h1 h2
    show (if 0 < d ∧ d ≤ 100 then some "low"
      else if 100 < d ∧ d ≤ 300 then some "medium"
      else if 300 < d ∧ d ≤ 500 then some "high"
      else if 500 < d then some "very_high" else none) = some "high"
    rw [if_neg (by rintro ⟨_, hx⟩; linarith),
      if_neg (by rintro ⟨_, hx⟩; linarith), if_pos ⟨h1, h2⟩]
  · intro h1
    show (if 0 < d ∧ d ≤ 100 then some "low"
      else if 100 < d ∧ d ≤ 300 then some "medium"
      else if 300 < d ∧ d ≤ 500 then some "high"
      else if 500 < d then some "very_high" else none) = some "very_high"
    rw [if_neg (by rintro ⟨_, hx⟩; linarith),
      if_neg (by rintro ⟨_, hx⟩; linarith),
      if_neg (by rintro ⟨_, hx⟩; linarith), if_pos h1]

/-- C8, witness: demand 200 falls in `(100,300]` and is labelled `medium`. -/
theorem c8_demand_level_buckets_amended_witness :
    (deriveRec rec200).demand_level = some "medium" := by
  have htc : transformCore [rec200] = .ok ([rec200].map deriveRec) :=
    transformCore_allnum [rec200] (by decide) (by simp) (by decide)
  have h := c8_demand_level_buckets_amended [rec200] ([rec200].map deriveRec) htc
    (deriveRec rec200) (by simp) 200 rfl
  exact h.2.2.1 (by norm_num) (by norm_num)

/-- Appending the derived columns is injective on rows. -/
theorem deriveRec_inj {r r' : Record} (h : deriveRec r = deriveRec r') :
    r = r' := by
  have hp : r.product_id = r'.product_id := congrArg TRecord.product_id h
  have hts : r.timestamp = r'.timestamp := congrArg TRecord.timestamp h
  have hc : ∀ c, r.cells c = r'.cells c := fun c =>
    congrFun (congrArg TRecord.cells h) (.orig c)
  cases r; cases r'
  simp only [Record.mk.injEq]
  exact ⟨hp, hts, funext hc⟩

/-- Recomputing the derived columns of a freshly derived row changes
nothing. -/
theorem deriveT_deriveRec (r : Record) : deriveT (deriveRec r) = deriveRec r := by
  unfold deriveT deriveRec
  simp only [TRecord.mk.injEq]

/-- On a duplicate-free transformed set whose cells are all present numbers,
whose prices are positive, and whose derived columns are already consistent,
a second transform pass is the identity. -/
theorem transformTCore_fixed (ts : List TRecord)
    (hnd : ts.Nodup)
    (hnum : ∀ t ∈ ts, ∀ c, isNum (t.cells c) = true)
    (hpos : ∀ t ∈ ts, cellPos (t.cells (.orig .current_price)) = true)
    (hder : ∀ t ∈ ts, deriveT t = t) :
    transformTCore ts = .ok ts := by
  have hded : dedupSeen [] ts = ts := dedupSeen_eq_self ts [] hnd (by simp)
  have hfill : fillnaT ts = ts := fillnaT_eq_self ts hnum
  have hcur : colHasTxt (fun t => t.cells (TCol.orig NumCol.current_price)) ts = false :=
    colHasTxt_false _ ts fun t ht => hnum t ht _
  have hfilt : ts.filter (fun t => cellPos (t.cells (TCol.orig NumCol.current_price))) = ts :=
    List.filter_eq_self.mpr hpos
  have hbase : colHasTxt (fun t => t.cells (TCol.orig NumCol.base_price)) ts = false :=
    colHasTxt_false _ ts fun t ht => hnum t ht _
  have hdem : colHasTxt (fun t => t.cells (TCol.orig NumCol.demand)) ts = false :=
    colHasTxt_false _ ts fun t ht => hnum t ht _
  have hmap : ts.map deriveT = ts := by
    conv_rhs => rw [← List.map_id ts]
    exact List.map_congr_left hder
  unfold transformTCore
  dsimp only []
  rw [hded, hfill, hcur, hfilt, hbase, hdem, hmap]
  simp

/-- C5, counterexample.  Two distinct rows whose only difference is a missing
demand cell: one transform imputes the median and makes them identical — its
output contains an exact duplicate pair — so a second transform removes a row
and the results differ. -/
theorem c5_transform_not_idempotent_counterexample :
    (transformCore [recImputeNa, recImpute200]).map List.length = .ok 2 ∧
    ((transformCore [recImputeNa, recImpute200]).bind transformTCore).map
      List.length = .ok 1 ∧
    (transformCore [recImputeNa, recImpute200]).bind transformTCore ≠
      transformCore [recImputeNa, recImpute200] := by
  decide

/-- C5, amended: on record sets with no missing (and no non-numeric) values
the transform is idempotent — one pass succeeds, and a second pass returns
its output unchanged (no further duplicates, non-positive prices, or missing
values to act on).  In general, median imputation of a missing value can make
two previously distinct rows identical, so the output of one transform can
contain exact duplicates that a second transform removes, and an all-missing
numeric column stays missing. -/
theorem c5_transform_idempotent_amended (rs : List Record)
    (hnum : ∀ r ∈ rs, ∀ c, isNum (r.cells c) = true) :
    ∃ ts, transformCore rs = .ok ts ∧ transformTCore ts = .ok ts := by
  have h1 : ∀ r ∈ dedupSeen ([] : List Record) rs, ∀ c, isNum (r.cells c) = true :=
    fun r hr => hnum r (mem_of_mem_dedupSeen rs [] hr)
  have hfill : fillna (dedupSeen [] rs) = dedupSeen [] rs := fillna_eq_self _ h1
  have hcur : colHasTxt (fun r => r.cells NumCol.current_price)
      (dedupSeen [] rs) = false :=
    colHasTxt_false _ _ fun r hr => h1 r hr _
  have h3 : ∀ r ∈ (dedupSeen ([] : List Record) rs).filter
      (fun r => cellPos (r.cells NumCol.current_price)),
      ∀ c, isNum (r.cells c) = true :=
    fun r hr => h1 r (List.mem_of_mem_filter hr)
  have hbase : colHasTxt (fun r => r.cells NumCol.base_price)
      ((dedupSeen [] rs).filter fun r => cellPos (r.cells NumCol.current_price)) =
      false :=
    colHasTxt_false _ _ fun r hr => h3 r hr _
  have hdem : colHasTxt (fun r => r.cells NumCol.demand)
      ((dedupSeen [] rs).filter fun r => cellPos (r.cells NumCol.current_price)) =
      false :=
    colHasTxt_false _ _ fun r hr => h3 r hr _
  have hok : transformCore rs =
      .ok (((dedupSeen [] rs).filter
        (fun r => cellPos (r.cells NumCol.current_price))).map deriveRec) := by
    unfold transformCore
    dsimp only []
    rw [hfill, hcur, hbase, hdem]
    simp
  refine ⟨_, hok, transformTCore_fixed _ ?_ ?_ ?_ ?_⟩
  · exact ((nodup_dedupSeen rs []).filter _).map
      (fun a b hab => deriveRec_inj hab)
  · intro t ht c
    obtain ⟨r, hr, rfl⟩ := List.mem_map.mp ht
    cases c with
    | orig c0 => exact h3 r hr c0
    | price_ratio =>
        have hcu := h3 r hr NumCol.current_price
        have hba := h3 r hr NumCol.base_price
        show isNum (ratioCell (r.cells NumCol.current_price)
          (r.cells NumCol.base_price)) = true
        cases hc : r.cells NumCol.current_price with
        | num a =>
            cases hb : r.cells NumCol.base_price with
            | num b => rfl
            | txt s => rw [hb] at hba; simp [isNum] at hba
            | na => rw [hb] at hba; simp [isNum] at hba
        | txt s => rw [hc] at hcu; simp [isNum] at hcu
        | na => rw [hc] at hcu; simp [isNum] at hcu
  · intro t ht
    obtain ⟨r, hr, rfl⟩ := List.mem_map.mp ht
    show cellPos (r.cells NumCol.current_price) = true
    exact @List.of_mem_filter _ (fun r => cellPos (r.cells NumCol.current_price))
      r _ hr
  · intro t ht
    obtain ⟨r, _, rfl⟩ := List.mem_map.mp ht
    exact deriveT_deriveRec r

/-- C5, witness: a one-row, fully numeric set is transformed once and left
unchanged by a second pass. -/
theorem c5_transform_idempotent_amended_witness :
    ∃ ts, transformCore [rec200] = .ok ts ∧ transformTCore ts = .ok ts :=
  c5_transform_idempotent_amended [rec200] (by decide)

/-- The inner day loop emits exactly one record per day. -/
theorem genDays_fst_length {σ : Type} (S : Sampler σ) (b : ℚ) (pid : ℕ)
    (st : DateTime) :
    ∀ (k d : ℕ) (s : σ), (genDays S b pid st d k s).1.length = k := by
  intro k
  induction k with
  | zero => intro d s; rfl
  | succ n ih =>
      intro d s
      simp only [genDays, List.length_cons]
      rw [ih]

/-- The outer product loop emits `days` records per product. -/
theorem genProducts_fst_length {σ : Type} (S : Sampler σ) (st : DateTime)
    (days : ℕ) :
    ∀ (k pid : ℕ) (s : σ), (genProducts S st days pid k s).1.length = k * days := by
  intro k
  induction k with
  | zero => intro pid s; simp [genProducts]
  | succ n ih =>
      intro pid s
      simp only [genProducts, List.length_append]
      rw [genDays_fst_length, ih]
      ring

/-- Neither the anchor date nor the day index feeds the random stream: two
day loops from different anchors emit the same seed-derived fields and end in
the same generator state. -/
theorem genDays_anchor_irrelevant {σ : Type} (S : Sampler σ) (b : ℚ)
    (pid : ℕ) (st st' : DateTime) :
    ∀ (k d d' : ℕ) (s : σ),
      (genDays S b pid st d k s).1.map rngFields =
        (genDays S b pid st' d' k s).1.map rngFields ∧
      (genDays S b pid st d k s).2 = (genDays S b pid st' d' k s).2 := by
  intro k
  induction k with
  | zero => intro d d' s; exact ⟨rfl, rfl⟩
  | succ n ih =>
      intro d d' s
      simp only [genDays, List.map_cons]
      refine ⟨?_, (ih (d + 1) (d' + 1) _).2⟩
      rw [(ih (d + 1) (d' + 1) _).1]
      rfl

/-- The same, lifted to the product loop. -/
theorem genProducts_anchor_irrelevant {σ : Type} (S : Sampler σ)
    (st st' : DateTime) (days : ℕ) :
    ∀ (k pid : ℕ) (s : σ),
      (genProducts S st days pid k s).1.map rngFields =
        (genProducts S st' days pid k s).1.map rngFields ∧
      (genProducts S st days pid k s).2 = (genProducts S st' days pid k s).2 := by
  intro k
  induction k with
  | zero => intro pid s; exact ⟨rfl, rfl⟩
  | succ n ih =>
      intro pid s
      simp only [genProducts, List.map_append]
      have hdays := genDays_anchor_irrelevant S (S.uniform 10 200 s).1 pid st st'
        days 0 0 (S.uniform 10 200 s).2
      constructor
      · rw [hdays.1, hdays.2, (ih (pid + 1) _).1]
      · rw [hdays.2, (ih (pid + 1) _).2]

/-- C2, amended: with identical arguments and the fixed seed,
`generate_sample_data` always yields exactly `n_products * days` records, and
every seed-derived field (`product_id`, `base_price`, `current_price`,
`demand`, `competition_price`) is identical across invocations; but the
four fields derived from `datetime.now()` (`timestamp`, `time_of_day`,
`day_of_week`, `season`) may differ between invocations made at different
instants, so full byte-identity holds only for invocations sharing the same
clock reading. -/
theorem c2_generate_deterministic_amended {σ : Type} (S : Sampler σ) (s0 : σ)
    (now now' : DateTime) (n_products days : ℕ) :
    (generate_sample_data S s0 now n_products days).length = n_products * days ∧
    (generate_sample_data S s0 now n_products days).map rngFields =
      (generate_sample_data S s0 now' n_products days).map rngFields := by
  constructor
  · exact genProducts_fst_length S _ days n_products 1 s0
  · exact (genProducts_anchor_irrelevant S (addDays now (-(days : ℤ)))
      (addDays now' (-(days : ℤ))) days n_products 1 s0).1

/-- C2, counterexample.  Two invocations with identical arguments
(`n_products = 1`, `days = 1`, the seed fixed by passing the same post-seed
generator state) but different wall-clock instants return different record
sequences: the `timestamp` field (and with it `time_of_day`/`day_of_week`/
`season`) comes from `datetime.now()`, which is not part of the seeded
stream.  `loSampler` stands in for the seeded `numpy` generator; the
difference below is independent of the drawn values. -/
theorem c2_generate_deterministic_counterexample :
    generate_sample_data loSampler () { day := 0, hour := 12 } 1 1 ≠
      generate_sample_data loSampler () { day := 7, hour := 12 } 1 1 ∧
    (generate_sample_data loSampler () { day := 0, hour := 12 } 1 1).map
        GRecord.timestamp ≠
      (generate_sample_data loSampler () { day := 7, hour := 12 } 1 1).map
        GRecord.timestamp := by
  decide

/-- Rounding to two decimals keeps a value that is at least 1 strictly
positive. -/
theorem round2_pos (x : ℚ) (h : 1 ≤ x) : 0 < round2 x := by
  have habs := abs_sub_round (x * 100)
  rw [abs_le] at habs
  have h1 : (99 : ℚ) / 2 ≤ ((round (x * 100) : ℤ) : ℚ) := by
    have h2 := habs.2
    linarith
  unfold round2
  have h100 : (0 : ℚ) < 100 := by norm_num
  exact div_pos (by linarith) h100

/-- The civil-calendar month of any day index lies in 1..12. -/
theorem civilMonth_bounds (z : ℤ) : 1 ≤ civilMonth z ∧ civilMonth z ≤ 12 := by
  unfold civilMonth
  dsimp only []
  split <;> omega

/-- Field bounds for every record the inner day loop emits, given `numpy`'s
range contracts and a base price at least 10. -/
theorem genDays_bounds {σ : Type} (S : Sampler σ)
    (hU : ∀ (lo hi : ℚ) (s : σ), lo < hi →
      lo ≤ (S.uniform lo hi s).1 ∧ (S.uniform lo hi s).1 < hi)
    (hR : ∀ (lo hi : ℤ) (s : σ), lo < hi →
      lo ≤ (S.randint lo hi s).1 ∧ (S.randint lo hi s).1 < hi)
    (b : ℚ) (hb : 10 ≤ b) (pid : ℕ) (st : DateTime) (hh : st.hour ≤ 23) :
    ∀ (k d : ℕ) (s : σ), ∀ g ∈ (genDays S b pid st d k s).1,
      0 < g.current_price ∧ 0 < g.base_price ∧ 0 < g.competition_price ∧
      50 ≤ g.demand ∧ g.demand < 500 ∧ g.time_of_day ≤ 23 ∧
      g.day_of_week ≤ 6 ∧ g.season ≤ 3 := by
  intro k
  induction k with
  | zero => intro d s g hg; exact absurd hg (by simp [genDays])
  | succ n ih =>
      intro d s g hg
      simp only [genDays] at hg
      rcases List.mem_cons.mp hg with h | h
      · subst h
        have hu2 := (hU (9/10) (11/10)
          (S.uniform (85/100) (115/100) (S.randint 50 500 s).2).2 (by norm_num)).1
        have hu1 := (hU (85/100) (115/100) (S.randint 50 500 s).2 (by norm_num)).1
        have hdm := hR 50 500 s (by norm_num)
        refine ⟨?_, ?_, ?_, hdm.1, hdm.2, hh, ?_, ?_⟩
        · exact round2_pos _ (by nlinarith)
        · exact round2_pos b (by linarith)
        · exact round2_pos _ (by nlinarith)
        · show (((addDays st (d : ℤ)).day + 3) % 7).toNat ≤ 6
          omega
        · show ((civilMonth (addDays st (d : ℤ)).day - 1) / 3).toNat ≤ 3
          have hm := civilMonth_bounds (addDays st (d : ℤ)).day
          omega
      · exact ih (d + 1) _ g h

/-- Field bounds for every record the outer product loop emits. -/
theorem genProducts_bounds {σ : Type} (S : Sampler σ)
    (hU : ∀ (lo hi : ℚ) (s : σ), lo < hi →
      lo ≤ (S.uniform lo hi s).1 ∧ (S.uniform lo hi s).1 < hi)
    (hR : ∀ (lo hi : ℤ) (s : σ), lo < hi →
      lo ≤ (S.randint lo hi s).1 ∧ (S.randint lo hi s).1 < hi)
    (st : DateTime) (hh : st.hour ≤ 23) (days : ℕ) :
    ∀ (k pid : ℕ) (s : σ), ∀ g ∈ (genProducts S st days pid k s).1,
      0 < g.current_price ∧ 0 < g.base_price ∧ 0 < g.competition_price ∧
      50 ≤ g.demand ∧ g.demand < 500 ∧ g.time_of_day ≤ 23 ∧
      g.day_of_week ≤ 6 ∧ g.season ≤ 3 := by
  intro k
  induction k with
  | zero => intro pid s g hg; exact absurd hg (by simp [genProducts])
  | succ n ih =>
      intro pid s g hg
      simp only [genProducts] at hg
      rcases List.mem_append.mp hg with h | h
      · exact genDays_bounds S hU hR (S.uniform 10 200 s).1
          (hU 10 200 s (by norm_num)).1 pid st hh days 0 _ g h
      · exact ih (pid + 1) _ g h

/-- C10: every record of `generate_sample_data` has positive
`current_price`, `base_price` and `competition_price`, `demand` in
`[50, 500)`, `time_of_day` in `[0, 23]`, `day_of_week` in `[0, 6]` and
`season` in `[0, 3]`; consequently validating a freshly generated set
produces a report with zero negative prices.  `hU`/`hR` are `numpy`'s
documented range contracts for `uniform`/`randint`, and `hh` is the
`datetime` invariant `now.hour ≤ 23`. -/
theorem c10_generated_record_bounds {σ : Type} (S : Sampler σ) (s0 : σ)
    (now : DateTime) (n_products days : ℕ)
    (hU : ∀ (lo hi : ℚ) (s : σ), lo < hi →
      lo ≤ (S.uniform lo hi s).1 ∧ (S.uniform lo hi s).1 < hi)
    (hR : ∀ (lo hi : ℤ) (s : σ), lo < hi →
      lo ≤ (S.randint lo hi s).1 ∧ (S.randint lo hi s).1 < hi)
    (hh : now.hour ≤ 23) :
    (∀ g ∈ generate_sample_data S s0 now n_products days,
      0 < g.current_price ∧ 0 < g.base_price ∧ 0 < g.competition_price ∧
      50 ≤ g.demand ∧ g.demand < 500 ∧ g.time_of_day ≤ 23 ∧
      g.day_of_week ≤ 6 ∧ g.season ≤ 3) ∧
    ∃ rep, validate_data
        ((generate_sample_data S s0 now n_products days).map toRecord) =
        .ok rep ∧ rep.negative_prices = 0 := by
  have hmem : ∀ g ∈ generate_sample_data S s0 now n_products days,
      0 < g.current_price ∧ 0 < g.base_price ∧ 0 < g.competition_price ∧
      50 ≤ g.demand ∧ g.demand < 500 ∧ g.time_of_day ≤ 23 ∧
      g.day_of_week ≤ 6 ∧ g.season ≤ 3 :=
    genProducts_bounds S hU hR (addDays now (-(days : ℤ))) hh days n_products 1 s0
  refine ⟨hmem, ?_⟩
  have hislu : ∀ r ∈ (generate_sample_data S s0 now n_products days).map toRecord,
      ∀ c, isNum (r.cells c) = true := by
    intro r hr c
    obtain ⟨g, _, rfl⟩ := List.mem_map.mp hr
    cases c <;> rfl
  have hcur : colHasTxt (fun r => r.cells NumCol.current_price)
      ((generate_sample_data S s0 now n_products days).map toRecord) = false :=
    colHasTxt_false _ _ fun r hr => hislu r hr _
  have hdem : colHasTxt (fun r => r.cells NumCol.demand)
      ((generate_sample_data S s0 now n_products days).map toRecord) = false :=
    colHasTxt_false _ _ fun r hr => hislu r hr _
  have hneg : ((generate_sample_data S s0 now n_products days).map toRecord).filter
      (fun r => cellNeg (r.cells NumCol.current_price)) = [] := by
    rw [List.filter_eq_nil_iff]
    intro r hr
    obtain ⟨g, hg, rfl⟩ := List.mem_map.mp hr
    have hpos := (hmem g hg).1
    show ¬cellNeg (Cell.num g.current_price) = true
    simp only [cellNeg, decide_eq_true_eq]
    intro hlt
    linarith
  unfold validate_data
  rw [hcur, hdem]
  simp only [Bool.false_eq_true, if_false]
  refine ⟨_, rfl, ?_⟩
  show (((generate_sample_data S s0 now n_products days).map toRecord).filter
      (fun r => cellNeg (r.cells NumCol.current_price))).length = 0
  rw [hneg]
  rfl

/-- C10, witness: a concrete in-contract sampler, clock reading, and shape. -/
theorem c10_generated_record_bounds_witness :
    ∃ rep, validate_data
        ((generate_sample_data loSampler () { day := 0, hour := 12 } 1 1).map
          toRecord) = .ok rep ∧ rep.negative_prices = 0 :=
  (c10_generated_record_bounds loSampler () { day := 0, hour := 12 } 1 1
    (fun lo hi s h => ⟨le_refl lo, h⟩)
    (fun lo hi s h => ⟨le_refl lo, h⟩)
    (by norm_num)).2

end Pricing
